import Mathlib

/-!
# Verification of the passwordless-client ceremony orchestrator

Shallow embedding of `src/passwordless.ts`: the base64url codec
(`base64UrlToArrayBuffer` / `arrayBufferToBase64Url`), the error normalizer
(`isErrorWithMessage` / `toErrorWithMessage` / `getErrorMessage`), the
capability probes, and the two ceremony state machines (`register`,
`signin`) of the `Client` class.

Byte sequences are modelled as `List Nat` (each entry a byte value), wire
text as `List Char`, and dynamic JavaScript values by the inductive `JsVal`.
The platform primitives `window.btoa` / `window.atob` (forgiving-base64
encode/decode, WHATWG HTML standard) are modelled by `btoa` / `atob`.
Ceremony runs are modelled as pure functions from an environment oracle
(HTTP responses, authenticator outcomes) to a trace of observable events
plus the settled outcome of the returned promise.
-/

namespace Passwordless

/-! ## Dynamic JavaScript values -/

/-- Model of a dynamic JavaScript value, as caught by `catch` blocks and as
carried in parsed JSON bodies.  `vObj` is a plain object (association list
of fields); `vCyclic` is an object whose structured serialization
(`JSON.stringify`) throws, e.g. a cyclic structure. -/
inductive JsVal where
  | vNull
  | vUndefined
  | vBool (b : Bool)
  | vNum (n : Int)
  | vStr (s : String)
  | vObj (fields : List (String × JsVal))
  | vCyclic (fields : List (String × JsVal))

/-- A parsed JSON object body: an association list of fields (first
occurrence of a key wins on lookup, matching unique-key parsed JSON). -/
abbrev Obj : Type := List (String × JsVal)

/-- Field lookup on an object body. -/
def objLookup (o : Obj) (k : String) : Option JsVal :=
  List.lookup k o

/-- Model of the spread `\x7b...res, from: "server"\x7d` (passwordless.ts
lines 159/199/269/310): every field of `res` is kept, with `from`
overridden to the string `"server"`. -/
def spreadFromServer (res : Obj) : Obj :=
  List.filter (fun p => p.1 != "from") res ++ [("from", JsVal.vStr "server")]

/-! ## The error normalizer (passwordless.ts lines 397-424) -/

/-- Result type of `toErrorWithMessage`: a value exposing a string
`message` field (source type `ErrorWithMessage`). -/
structure ErrorWithMessage where
  message : String

/-- The `message` field of a value when it is a string, on object-typed
values (`typeof error === "object" && error !== null`), else `none`.
`isErrorWithMessage` (lines 401-408) is exactly the `isSome` of this. -/
def msgField : JsVal → Option String
  | .vObj fs | .vCyclic fs =>
    match List.lookup "message" fs with
    | some (.vStr m) => some m
    | _ => none
  | _ => none

/-- `isErrorWithMessage` (lines 401-408): object-typed, non-null, with a
string `message` field. -/
def isErrorWithMessage (v : JsVal) : Bool :=
  (msgField v).isSome

/-- Whether a value is `undefined`. -/
def isUndef : JsVal → Bool
  | .vUndefined => true
  | _ => false

/-- Whether structured serialization of the value throws (a `vCyclic`
somewhere inside). -/
def hasCyclic : JsVal → Bool
  | .vObj [] => false
  | .vObj ((_, v) :: rest) => hasCyclic v || hasCyclic (.vObj rest)
  | .vCyclic _ => true
  | _ => false

mutual

/-- Modelled from the platform: the JSON text `JSON.stringify` renders for
a serializable value (string escaping elided; `undefined`-valued fields
omitted, as the platform does). -/
def renderJson : JsVal → String
  | .vNull => "null"
  | .vUndefined => "null"
  | .vBool b => cond b "true" "false"
  | .vNum n => toString n
  | .vStr s => "\"" ++ s ++ "\""
  | .vObj fs => "\x7b" ++ String.intercalate "," (renderFields fs) ++ "\x7d"
  | .vCyclic _ => ""

/-- Rendered `"key":value` pieces of an object body, omitting
`undefined`-valued fields. -/
def renderFields : List (String × JsVal) → List String
  | [] => []
  | (k, v) :: rest =>
    if isUndef v then renderFields rest
    else ("\"" ++ k ++ "\":" ++ renderJson v) :: renderFields rest

end

/-- Outcome of `JSON.stringify`: a text, the `undefined` value (for an
input the platform does not serialize), or a thrown exception (cyclic
structure). -/
inductive StringifyOutcome where
  | text (s : String)
  | undef
  | thrown

/-- Modelled from the platform: `JSON.stringify` as used by
`toErrorWithMessage` (line 414). Cyclic values throw, `undefined` yields
no text, every other modelled value renders to its JSON text. -/
def jsonStringify (v : JsVal) : StringifyOutcome :=
  if isUndef v then .undef
  else if hasCyclic v then .thrown
  else .text (renderJson v)

/-- Modelled from the platform: the generic string conversion
`String(value)` used by the fallback on line 418. -/
def jsString : JsVal → String
  | .vNull => "null"
  | .vUndefined => "undefined"
  | .vBool b => cond b "true" "false"
  | .vNum n => toString n
  | .vStr s => s
  | .vObj _ => "[object Object]"
  | .vCyclic _ => "[object Object]"

/-- `toErrorWithMessage` (lines 410-420): a value with a string `message`
field is used as is; otherwise `new Error(JSON.stringify(maybeError))`,
falling back to `new Error(String(maybeError))` when stringification
throws. `new Error(x)` has message `x` when `x` is a string and message
`""` when `x` is `undefined`. -/
def toErrorWithMessage (v : JsVal) : ErrorWithMessage :=
  match msgField v with
  | some m => ⟨m⟩
  | none =>
    match jsonStringify v with
    | .text s => ⟨s⟩
    | .undef => ⟨""⟩
    | .thrown => ⟨jsString v⟩

/-- `getErrorMessage` (lines 422-424). -/
def getErrorMessage (v : JsVal) : String :=
  (toErrorWithMessage v).message

/-- A thrown platform error object carrying a `name` and a `message`
string field (e.g. `TypeError`, `Error`). -/
def mkError (name msg : String) : JsVal :=
  .vObj [("name", .vStr name), ("message", .vStr msg)]

/-! ## The base64url codec (passwordless.ts lines 348-395) -/

/-- The standard base64 alphabet, in index order. -/
def b64Alphabet : List Char :=
  "ABCDEFGHIJKLMNOPQRSTUVWXYZabcdefghijklmnopqrstuvwxyz0123456789+/".toList

/-- The character for a sextet value (index into the standard alphabet). -/
def b64Char (n : Nat) : Char :=
  b64Alphabet.getD n 'A'

/-- The index of a character in the standard alphabet, if any. -/
def b64Val (c : Char) : Option Nat :=
  b64Alphabet.findIdx? (fun x => x == c)

/-- Modelled from the platform: `window.btoa`, standard base64 encoding of
a byte sequence, with `=` padding. -/
def btoa : List Nat → List Char
  | [] => []
  | [b1] => [b64Char (b1 / 4), b64Char (b1 % 4 * 16), '=', '=']
  | [b1, b2] =>
    [b64Char (b1 / 4), b64Char (b1 % 4 * 16 + b2 / 16), b64Char (b2 % 16 * 4), '=']
  | b1 :: b2 :: b3 :: r =>
    b64Char (b1 / 4) :: b64Char (b1 % 4 * 16 + b2 / 16) ::
      b64Char (b2 % 16 * 4 + b3 / 64) :: b64Char (b3 % 64) :: btoa r

/-- ASCII whitespace, stripped by forgiving-base64 decoding. -/
def isB64Space (c : Char) : Bool :=
  c == ' ' || c == '\t' || c == '\n' || c == '\x0c' || c == '\r'

/-- Decoding of a sextet list into bytes (the core of base64 decoding):
groups of four sextets give three bytes, a trailing pair gives one byte, a
trailing triple gives two (excess low bits discarded, as the platform
does). A trailing single sextet cannot occur on inputs `atob` accepts. -/
def decodeSextets : List Nat → List Nat
  | s1 :: s2 :: s3 :: s4 :: r =>
    (s1 * 4 + s2 / 16) :: (s2 % 16 * 16 + s3 / 4) :: (s3 % 4 * 64 + s4) :: decodeSextets r
  | [s1, s2, s3] => [s1 * 4 + s2 / 16, s2 % 16 * 16 + s3 / 4]
  | [s1, s2] => [s1 * 4 + s2 / 16]
  | _ => []

/-- Remove one trailing `=` if present. -/
def stripOnePad (s : List Char) : List Char :=
  if s.getLast? = some '=' then s.dropLast else s

/-- Remove up to two trailing `=` characters, as forgiving-base64 does
when the input length is a multiple of four. -/
def stripPad2 (s : List Char) : List Char :=
  stripOnePad (stripOnePad s)

/-- The pre-processing stage of forgiving-base64 decoding: strip ASCII
whitespace, then strip up to two trailing `=` when the resulting length is
a multiple of four. -/
def atobPre (s : List Char) : List Char :=
  if (s.filter (fun c => !isB64Space c)).length % 4 == 0 then
    stripPad2 (s.filter (fun c => !isB64Space c))
  else s.filter (fun c => !isB64Space c)

/-- Modelled from the platform: `window.atob`, the WHATWG forgiving-base64
decode. After pre-processing it fails (`none`, a thrown
`InvalidCharacterError` in the platform) when the remaining length is
`1 mod 4` or a character is outside the standard alphabet, and otherwise
decodes sextets to bytes. -/
def atob (s : List Char) : Option (List Nat) :=
  if (atobPre s).length % 4 == 1 then none
  else ((atobPre s).mapM b64Val).map decodeSextets

/-- Drop the trailing run of `=` characters (the `replace(/=*$/g, "")` of
line 349). -/
def dropTrailingEq (s : List Char) : List Char :=
  (s.reverse.dropWhile (fun c => c == '=')).reverse

/-- Replace every `+` by `-` (line 349, first replace). -/
def replacePlus (c : Char) : Char :=
  if c = '+' then '-' else c

/-- Replace every `/` by `_` (line 349, second replace). -/
def replaceSlash (c : Char) : Char :=
  if c = '/' then '_' else c

/-- `base64ToBase64Url` (lines 348-350). -/
def base64ToBase64Url (s : List Char) : List Char :=
  dropTrailingEq ((s.map replacePlus).map replaceSlash)

/-- Replace every `-` by `+` (line 353, first replace). -/
def replaceMinus (c : Char) : Char :=
  if c = '-' then '+' else c

/-- Replace every `_` by `/` (line 353, second replace). -/
def replaceUnderscore (c : Char) : Char :=
  if c = '_' then '/' else c

/-- `base64UrlToBase64` (lines 352-354). -/
def base64UrlToBase64 (s : List Char) : List Char :=
  (s.map replaceMinus).map replaceUnderscore

/-- The string branch of `base64UrlToArrayBuffer` (lines 364-374):
translate URL-safe characters back, re-derive the required padding as
`(4 - length mod 4) mod 4`, pad with `=`, and run `atob`; the resulting
binary string is read back byte by byte. -/
def base64UrlToArrayBuffer (s : List Char) : Option (List Nat) :=
  atob (base64UrlToBase64 s ++
    List.replicate ((4 - (base64UrlToBase64 s).length % 4) % 4) '=')

/-- The byte-sequence core of `arrayBufferToBase64Url` (lines 388-394):
build the binary string from the bytes, `btoa` it, and make it URL safe. -/
def arrayBufferToBase64Url (bytes : List Nat) : List Char :=
  base64ToBase64Url (btoa bytes)

/-- The character the URL-safe encoding uses for a sextet value. -/
def urlB64Char (n : Nat) : Char :=
  replaceSlash (replacePlus (b64Char n))

/-- The URL-safe base64 alphabet. -/
def urlB64Alphabet : List Char :=
  (b64Alphabet.map replacePlus).map replaceSlash

/-- Padding-free sextet expansion of a byte sequence (the composite
behaviour of `btoa` followed by `base64ToBase64Url`, proved as
`arrayBufferToBase64Url_eq_sextets`). -/
def toSextets : List Nat → List Nat
  | [] => []
  | [b1] => [b1 / 4, b1 % 4 * 16]
  | [b1, b2] => [b1 / 4, b1 % 4 * 16 + b2 / 16, b2 % 16 * 4]
  | b1 :: b2 :: b3 :: r =>
    (b1 / 4) :: (b1 % 4 * 16 + b2 / 16) :: (b2 % 16 * 4 + b3 / 64) :: (b3 % 64) :: toSextets r

/-- The sextet value the decoder assigns to a URL-safe character (getD 0
is only the total-function default; on alphabet characters the value is
the real index). -/
def urlCharVal (c : Char) : Option Nat :=
  b64Val (replaceUnderscore (replaceMinus c))

/-- Total version of `urlCharVal`. -/
def charValD (c : Char) : Nat :=
  (urlCharVal c).getD 0

/-- Canonicity of a sextet list: the length is a valid unpadded base64
length (never `1 mod 4`) and the unused low bits of a trailing partial
group are zero, so the list is exactly the sextet expansion of some byte
sequence. -/
def canonSextets : List Nat → Bool
  | _ :: _ :: _ :: _ :: r => canonSextets r
  | [_, s2] => s2 % 16 == 0
  | [_, _, s3] => s3 % 4 == 0
  | [_] => false
  | [] => true

/-- Valid padding-free URL-safe base64 wire text: every character is in
the URL-safe alphabet and the sextet sequence is canonical (valid length
and zero excess bits), i.e. the text is the canonical encoding of some
byte sequence — the form of text the codec itself produces for the wire. -/
def isValidWire (t : List Char) : Bool :=
  t.all (fun c => urlB64Alphabet.contains c) && canonSextets (t.map charValD)

/-! ## Runtime input shapes of the codec entry points -/

/-- The runtime shape of a value handed to the codec entry points: a
string, a `Uint8Array`, an `ArrayBuffer`, a plain numeric array, or any
other value. -/
inductive JSInput where
  | str (s : List Char)
  | u8 (bytes : List Nat)
  | arrbuf (bytes : List Nat)
  | numarr (nums : List Nat)
  | other (v : JsVal)

/-- The message of the decoder's type error (line 359). -/
def decodeTypeErrorMessage : String :=
  "Cannot convert from Base64Url to ArrayBuffer: Input was not of type string"

/-- The message of the encoder's unsupported-input error (line 383). -/
def encodeUnsupportedMessage : String :=
  "Cannot convert from ArrayBuffer to Base64Url. Input was not of type ArrayBuffer, Uint8Array or Array"

/-- The message of the platform error thrown by `atob` on invalid base64
input. -/
def invalidCharacterMessage : String :=
  "InvalidCharacterError"

/-- `base64UrlToArrayBuffer` with its runtime type guard (lines 356-375):
a non-string input throws a `TypeError`; a string is decoded, `atob`
throwing on invalid base64. -/
def base64UrlToArrayBufferJS (input : JSInput) : Except JsVal (List Nat) :=
  match input with
  | .str s =>
    match base64UrlToArrayBuffer s with
    | some bytes => .ok bytes
    | none => .error (mkError "InvalidCharacterError" invalidCharacterMessage)
  | _ => .error (mkError "TypeError" decodeTypeErrorMessage)

/-- `arrayBufferToBase64Url` with its runtime shape dispatch (lines
377-395): a plain numeric array is coerced through `Uint8Array.from`
(byte values taken mod 256), an `ArrayBuffer` is viewed as bytes, a
`Uint8Array` is used as is, and every other shape throws an `Error`. -/
def arrayBufferToBase64UrlJS (input : JSInput) : Except JsVal (List Char) :=
  match input with
  | .numarr nums => .ok (arrayBufferToBase64Url (nums.map (fun n => n % 256)))
  | .arrbuf bytes => .ok (arrayBufferToBase64Url bytes)
  | .u8 bytes => .ok (arrayBufferToBase64Url bytes)
  | .str _ => .error (mkError "Error" encodeUnsupportedMessage)
  | .other _ => .error (mkError "Error" encodeUnsupportedMessage)

/-! ## Configuration and selectors -/

/-- The `Config` interface (lines 10-15). -/
structure Config where
  apiUrl : String
  apiKey : String
  origin : String
  rpid : String

/-- The `SigninMethod` selector: a tagged choice of exactly one
discriminant.  Modelled from the spec for the shape (the `types.ts` module
is not in the sources); the discriminants are the ones the source tests
with `"userId" in`, `"alias" in` and `"autofill" in` and the ones the
convenience entry points construct (lines 91-123, 215-217, 231,
256-258). -/
inductive SigninMethod where
  | userId (u : String)
  | aliasName (a : String)
  | autofill
  | discoverable

/-! ## Request bodies -/

/-- Body of `POST /register/begin` (lines 147-151). -/
structure RegisterBeginBody where
  token : String
  rpid : String
  origin : String

/-- Body of `POST /signin/begin` (lines 256-261); `none` models a field
set to `undefined` (omitted from the serialized JSON). -/
structure SigninBeginBody where
  userId : Option String
  aliasName : Option String
  rpid : String
  origin : String

/-- The construction of the sign-in begin body (lines 256-261): `userId`
is sent iff the selector has a `userId` discriminant, `alias` iff it has
an `alias` discriminant. -/
def mkSigninBeginBody (cfg : Config) (m : SigninMethod) : SigninBeginBody :=
  { userId := match m with | .userId u => some u | _ => none
    aliasName := match m with | .aliasName a => some a | _ => none
    rpid := cfg.rpid
    origin := cfg.origin }

/-- The credential returned by `navigator.credentials.create`, with the
fields `registerComplete` reads (lines 167-187). -/
structure AttCredential where
  id : String
  typ : String
  rawId : List Nat
  extensions : Obj
  attestationObject : List Nat
  clientDataJSON : List Nat

/-- The credential returned by `navigator.credentials.get`, with the
fields `signinComplete` reads (lines 276-298). -/
structure AssertCredential where
  id : String
  typ : String
  rawId : List Nat
  extensions : Obj
  authenticatorData : List Nat
  clientDataJSON : List Nat
  signature : List Nat

/-- Body of `POST /register/complete` (lines 172-191), with the JSON
nesting flattened; every binary field is wire-encoded with
`arrayBufferToBase64Url`. -/
structure RegisterCompleteBody where
  session : String
  id : String
  rawId : List Char
  typ : String
  extensions : Obj
  attestationObject : List Char
  clientDataJson : List Char
  nickname : String
  rpid : String
  origin : String

/-- The construction of the register complete body (lines 172-191). -/
def mkRegisterCompleteBody (cfg : Config) (cred : AttCredential)
    (session nickname : String) : RegisterCompleteBody :=
  { session := session
    id := cred.id
    rawId := arrayBufferToBase64Url cred.rawId
    typ := cred.typ
    extensions := cred.extensions
    attestationObject := arrayBufferToBase64Url cred.attestationObject
    clientDataJson := arrayBufferToBase64Url cred.clientDataJSON
    nickname := nickname
    rpid := cfg.rpid
    origin := cfg.origin }

/-- Body of `POST /signin/complete` (lines 281-302), flattened. -/
structure SigninCompleteBody where
  session : String
  id : String
  rawId : List Char
  typ : String
  extensions : Obj
  authenticatorData : List Char
  clientDataJson : List Char
  signature : List Char
  rpid : String
  origin : String

/-- The construction of the sign-in complete body (lines 281-302). -/
def mkSigninCompleteBody (cfg : Config) (cred : AssertCredential)
    (session : String) : SigninCompleteBody :=
  { session := session
    id := cred.id
    rawId := arrayBufferToBase64Url cred.rawId
    typ := cred.typ
    extensions := cred.extensions
    authenticatorData := arrayBufferToBase64Url cred.authenticatorData
    clientDataJson := arrayBufferToBase64Url cred.clientDataJSON
    signature := arrayBufferToBase64Url cred.signature
    rpid := cfg.rpid
    origin := cfg.origin }

/-! ## Wire-encoded ceremony options and their decoding -/

/-- The `data` field of a register begin response, with the fields the
orchestrator decodes (lines 45-49): the binary fields still in their wire
shape (a string when well formed, but any runtime value can arrive). -/
structure RegDataWire where
  challenge : JSInput
  userId : JSInput
  excludeCredentialIds : Option (List JSInput)

/-- Decoded registration options. -/
structure RegDataDec where
  challenge : List Nat
  userId : List Nat
  excludeCredentialIds : Option (List (List Nat))

/-- The decoding step of `register` (lines 45-49): challenge, then user
id, then each excluded credential id; the first failure throws. -/
def decodeRegData (w : RegDataWire) : Except JsVal RegDataDec := do
  let c ← base64UrlToArrayBufferJS w.challenge
  let u ← base64UrlToArrayBufferJS w.userId
  match w.excludeCredentialIds with
  | none => pure ⟨c, u, none⟩
  | some l => do
    let ds ← l.mapM base64UrlToArrayBufferJS
    pure ⟨c, u, some ds⟩

/-- The `data` field of a sign-in begin response (lines 224-227). -/
structure SigninDataWire where
  challenge : JSInput
  allowCredentialIds : Option (List JSInput)

/-- Decoded sign-in options. -/
structure SigninDataDec where
  challenge : List Nat
  allowCredentialIds : Option (List (List Nat))

/-- The decoding step of `signin` (lines 224-227). -/
def decodeSigninData (w : SigninDataWire) : Except JsVal SigninDataDec := do
  let c ← base64UrlToArrayBufferJS w.challenge
  match w.allowCredentialIds with
  | none => pure ⟨c, none⟩
  | some l => do
    let ds ← l.mapM base64UrlToArrayBufferJS
    pure ⟨c, some ds⟩

/-! ## Environment oracle and observable events -/

/-- Parsed body of a `begin` endpoint success response: an optional
`error` field (checked by `if (registration.error)` / `if (signin.error)`),
the `data` options and the opaque `session` token. -/
structure BeginSuccess (W : Type) where
  error : Option Obj
  data : W
  session : String

/-- HTTP outcome of a `begin` endpoint: a success-status response with its
parsed typed body, or a non-success status with its parsed JSON body. -/
inductive BeginResp (W : Type) where
  | ok (res : BeginSuccess W)
  | notOk (body : Obj)

/-- HTTP outcome of a `complete` endpoint. -/
inductive HttpJsonResp where
  | ok (body : Obj)
  | notOk (body : Obj)

/-- Outcome of the authenticator's credential-creation capability
`navigator.credentials.create` (line 51): a credential, a null result, or
a thrown/rejected value. -/
inductive CreateOutcome where
  | success (cred : AttCredential)
  | nullCred
  | thrown (v : JsVal)

/-- Outcome of the authenticator's credential-retrieval capability
`navigator.credentials.get` (line 229). -/
inductive GetOutcome where
  | success (cred : AssertCredential)
  | nullCred
  | thrown (v : JsVal)

/-- The environment oracle a ceremony run consumes: the platform
capabilities and the outcome of each external interaction. -/
structure CeremonyEnv where
  /-- `window.PublicKeyCredential !== undefined` -/
  pkcDefined : Bool
  /-- `typeof window.PublicKeyCredential === "function"` -/
  pkcCallable : Bool
  /-- `PublicKeyCredential.isConditionalMediationAvailable`: `none` when
  the capability-query function is absent, `some b` for its answer. -/
  condMediation : Option Bool
  registerBeginResp : BeginResp RegDataWire
  credCreate : CreateOutcome
  registerCompleteResp : HttpJsonResp
  signinBeginResp : BeginResp SigninDataWire
  credGet : GetOutcome
  signinCompleteResp : HttpJsonResp

/-- `isBrowserSupported` (lines 338-340). -/
def isBrowserSupported (env : CeremonyEnv) : Bool :=
  env.pkcDefined && env.pkcCallable

/-- `isAutofillSupported` (lines 342-346): reading
`isConditionalMediationAvailable` off an undefined global throws a
`TypeError`; an absent query function yields `false`; otherwise the
query's answer is returned. -/
def isAutofillSupportedRun (env : CeremonyEnv) : Except JsVal Bool :=
  if env.pkcDefined then
    match env.condMediation with
    | none => .ok false
    | some b => .ok b
  else
    .error (mkError "TypeError" "Cannot read properties of undefined (reading isConditionalMediationAvailable)")

/-- `isPlatformSupported` (lines 333-336): false immediately when the
environment is unsupported, else the platform's own availability query
(an extra oracle answer). -/
def isPlatformSupportedRun (env : CeremonyEnv) (platformAnswer : Bool) : Bool :=
  if isBrowserSupported env then platformAnswer else false

/-- The observable events of a ceremony run, in program order: network
requests (with their bodies), authenticator invocations, and the
cancellation-controller operations.  `credGet` records the generation of
the abort signal armed for the retrieval and whether conditional
(autofill) mediation was requested. -/
inductive Ev where
  | fetchRegisterBegin (body : RegisterBeginBody)
  | credCreate
  | fetchRegisterComplete (body : RegisterCompleteBody)
  | abortSignal (gen : Nat)
  | newController (gen : Nat)
  | fetchSigninBegin (body : SigninBeginBody)
  | credGet (gen : Nat) (conditional : Bool)
  | fetchSigninComplete (body : SigninCompleteBody)

/-- The settled value of a ceremony promise: the parsed success body, or
the `\x7berror: ...\x7d` result shape. -/
inductive CeremonyResult where
  | success (body : Obj)
  | failure (err : Obj)

/-- How a public call finishes: its promise resolves to a result, or it
rejects with a thrown value that escaped the ceremony. -/
inductive CallOutcome where
  | result (r : CeremonyResult)
  | thrown (v : JsVal)

/-- The mutable state a `Client` instance carries across calls: its
current `AbortController`, modelled by a generation number (a fresh
controller gets the next generation; `Ev.abortSignal g` is generation `g`
observing abort). -/
structure ClientState where
  gen : Nat

/-- The selector defaulting of `signin` (lines 215-217): an absent
selector becomes a discoverable sign-in. -/
def defaultSelector : Option SigninMethod → SigninMethod
  | none => SigninMethod.discoverable
  | some m => m

/-- The error object built by the ceremony `catch` blocks
(lines 74-78 and 240-244). -/
def unknownClientError (title : String) : Obj :=
  [("from", JsVal.vStr "client"), ("errorCode", JsVal.vStr "unknown"),
   ("title", JsVal.vStr title)]

/-- The normalization a ceremony `catch` block applies to a caught value
(lines 73-78 / 239-244). -/
def catchNormalize (v : JsVal) : Obj :=
  unknownClientError (getErrorMessage v)

/-- The message of the error `assertBrowserSupported` throws
(line 320). -/
def browserUnsupportedMessage : String :=
  "WebAuthn and PublicKeyCredentials are not supported on this browser/device"

/-- The error object returned when `register` sees a null credential
(lines 56-60). -/
def failedCreateCredentialError : Obj :=
  [("from", JsVal.vStr "client"),
   ("errorCode", JsVal.vStr "failed_create_credential"),
   ("title", JsVal.vStr "Failed to create credential (navigator.credentials.create returned null)")]

/-- The message of the `TypeError` thrown when `signinComplete` reads
`.response` off a null credential (line 276). -/
def nullCredentialResponseMessage : String :=
  "Cannot read properties of null (reading response)"

/-- `Client.register` (lines 35-84) as a trace-producing function: the
emitted events in program order paired with the settled outcome.  The
whole body runs inside `try`, so the `assertBrowserSupported` throw and
every later throw is normalized into the result shape by the `catch`
block. -/
def registerRun (cfg : Config) (env : CeremonyEnv) (token nickname : String) :
    List Ev × CallOutcome :=
  if isBrowserSupported env then
    let evB := [Ev.fetchRegisterBegin ⟨token, cfg.rpid, cfg.origin⟩]
    match env.registerBeginResp with
    | .notOk body => (evB, .result (.failure (spreadFromServer body)))
    | .ok res =>
      match res.error with
      | some e => (evB, .result (.failure e))
      | none =>
        match decodeRegData res.data with
        | .error v => (evB, .result (.failure (catchNormalize v)))
        | .ok _dec =>
          let evC := evB ++ [Ev.credCreate]
          match env.credCreate with
          | .thrown v => (evC, .result (.failure (catchNormalize v)))
          | .nullCred => (evC, .result (.failure failedCreateCredentialError))
          | .success cred =>
            let evD := evC ++
              [Ev.fetchRegisterComplete (mkRegisterCompleteBody cfg cred res.session nickname)]
            match env.registerCompleteResp with
            | .ok body => (evD, .result (.success body))
            | .notOk body => (evD, .result (.failure (spreadFromServer body)))
  else ([], .result (.failure (catchNormalize (mkError "Error" browserUnsupportedMessage))))

/-- `Client.signin` (lines 208-250) as a trace-producing function over the
client state: `assertBrowserSupported`, then `handleAbort` (signal abort
on the current controller, install a fresh one, lines 313-316), selector
defaulting, begin fetch, decode, retrieval armed with the fresh
controller's signal, and complete.  A null retrieval result reaches
`signinComplete`, whose `credential.response` access throws before the
complete fetch; that and every other throw is normalized by the `catch`
block. -/
def signinRun (cfg : Config) (st : ClientState) (env : CeremonyEnv)
    (signinMethod : Option SigninMethod) : ClientState × List Ev × CallOutcome :=
  if isBrowserSupported env then
    let st1 : ClientState := ⟨st.gen + 1⟩
    let m := defaultSelector signinMethod
    let evB := [Ev.abortSignal st.gen, Ev.newController (st.gen + 1),
                Ev.fetchSigninBegin (mkSigninBeginBody cfg m)]
    match env.signinBeginResp with
    | .notOk body => (st1, evB, .result (.failure (spreadFromServer body)))
    | .ok res =>
      match res.error with
      | some e => (st1, evB, .result (.failure e))
      | none =>
        match decodeSigninData res.data with
        | .error v => (st1, evB, .result (.failure (catchNormalize v)))
        | .ok _dec =>
          let conditional := match m with
            | .autofill => true
            | _ => false
          let evC := evB ++ [Ev.credGet (st.gen + 1) conditional]
          match env.credGet with
          | .thrown v => (st1, evC, .result (.failure (catchNormalize v)))
          | .nullCred =>
            (st1, evC, .result (.failure
              (catchNormalize (mkError "TypeError" nullCredentialResponseMessage))))
          | .success cred =>
            let evD := evC ++
              [Ev.fetchSigninComplete (mkSigninCompleteBody cfg cred res.session)]
            match env.signinCompleteResp with
            | .ok body => (st1, evD, .result (.success body))
            | .notOk body => (st1, evD, .result (.failure (spreadFromServer body)))
  else (st, [], .result (.failure (catchNormalize (mkError "Error" browserUnsupportedMessage))))

/-- `Client.signinWithId` (lines 91-93). -/
def signinWithIdRun (cfg : Config) (st : ClientState) (env : CeremonyEnv)
    (userId : String) : ClientState × List Ev × CallOutcome :=
  signinRun cfg st env (some (.userId userId))

/-- `Client.signinWithAlias` (lines 102-104). -/
def signinWithAliasRun (cfg : Config) (st : ClientState) (env : CeremonyEnv)
    (a : String) : ClientState × List Ev × CallOutcome :=
  signinRun cfg st env (some (.aliasName a))

/-- `Client.signinWithDiscoverable` (lines 121-123). -/
def signinWithDiscoverableRun (cfg : Config) (st : ClientState)
    (env : CeremonyEnv) : ClientState × List Ev × CallOutcome :=
  signinRun cfg st env (some .discoverable)

/-- The message of the error `signinWithAutofill` throws when the
autofill probe answers no (line 112). -/
def autofillUnsupportedMessage : String :=
  "Autofill authentication (conditional meditation) is not supported in this browser"

/-- `Client.signinWithAutofill` (lines 110-115): the autofill probe runs
outside any `try`, so a probe failure or a negative answer rejects the
promise before the ceremony starts. -/
def signinWithAutofillRun (cfg : Config) (st : ClientState)
    (env : CeremonyEnv) : ClientState × List Ev × CallOutcome :=
  match isAutofillSupportedRun env with
  | .error v => (st, [], .thrown v)
  | .ok false => (st, [], .thrown (mkError "Error" autofillUnsupportedMessage))
  | .ok true => signinRun cfg st env (some .autofill)

/-- Sequential composition of sign-in invocations on one client instance:
the accumulated event trace and the final client state. -/
def runSeq (cfg : Config) (st : ClientState) :
    List (CeremonyEnv × Option SigninMethod) → ClientState × List Ev
  | [] => (st, [])
  | (env, m) :: rest =>
    let r := signinRun cfg st env m
    let rr := runSeq cfg r.1 rest
    (rr.1, r.2.1 ++ rr.2)

/-- Generation `g` is armed with a live signal in trace `tr`: some
retrieval was armed with `g`'s signal and `g` has not observed abort. -/
def liveArmed (tr : List Ev) (g : Nat) : Prop :=
  (∃ c, Ev.credGet g c ∈ tr) ∧ Ev.abortSignal g ∉ tr

/-- Structural induction following the three-byte grouping of `btoa` and
`toSextets`. -/
def threeStepInd {P : List Nat → Prop} (h0 : P []) (h1 : ∀ a, P [a])
    (h2 : ∀ a b, P [a, b]) (h3 : ∀ a b c r, P r → P (a :: b :: c :: r)) :
    ∀ l, P l
  | [] => h0
  | [a] => h1 a
  | [a, b] => h2 a b
  | a :: b :: c :: r => h3 a b c r (threeStepInd h0 h1 h2 h3 r)

/-- Structural induction following the four-sextet grouping of
`decodeSextets` and `canonSextets`. -/
def fourStepInd {P : List Nat → Prop} (h0 : P []) (h1 : ∀ a, P [a])
    (h2 : ∀ a b, P [a, b]) (h3 : ∀ a b c, P [a, b, c])
    (h4 : ∀ a b c d r, P r → P (a :: b :: c :: d :: r)) : ∀ l, P l
  | [] => h0
  | [a] => h1 a
  | [a, b] => h2 a b
  | [a, b, c] => h3 a b c
  | a :: b :: c :: d :: r => h4 a b c d r (fourStepInd h0 h1 h2 h3 h4 r)

/-! ## Concrete fixtures used by witnesses -/

/-- A concrete configuration. -/
def cfgW : Config :=
  ⟨"https://api.example", "key1", "https://origin.example", "rp.example"⟩

/-- Concrete registration options whose wire fields all decode. -/
def regDataW : RegDataWire :=
  ⟨.str ['A', 'A', 'A', 'A'], .str [], none⟩

/-- Concrete sign-in options whose wire fields all decode. -/
def signinDataW : SigninDataWire :=
  ⟨.str ['A', 'A', 'A', 'A'], none⟩

/-- A concrete fully-supported environment. -/
def envW : CeremonyEnv :=
  { pkcDefined := true
    pkcCallable := true
    condMediation := some true
    registerBeginResp := .ok ⟨none, regDataW, "sessR"⟩
    credCreate := .nullCred
    registerCompleteResp := .ok [("token", .vStr "verify1")]
    signinBeginResp := .ok ⟨none, signinDataW, "sessS"⟩
    credGet := .nullCred
    signinCompleteResp := .ok [("token", .vStr "verify2")] }

/-- A concrete environment whose environment-support check fails. -/
def envWUnsupported : CeremonyEnv :=
  { envW with pkcDefined := false, pkcCallable := false, condMediation := none }

/-! ## Alphabet facts -/

theorem b64Alphabet_length : b64Alphabet.length = 64 := by decide

theorem b64Char_of_ge (n : Nat) (h : 64 ≤ n) : b64Char n = 'A' := by
  unfold b64Char
  rw [List.getD_eq_default]
  rw [b64Alphabet_length]
  omega

theorem urlB64Char_ne_eq (n : Nat) : urlB64Char n ≠ '=' := by
  by_cases h : n < 64
  · have hfin : ∀ i : Fin 64, urlB64Char i.val ≠ '=' := by decide
    exact hfin ⟨n, h⟩
  · unfold urlB64Char
    rw [b64Char_of_ge n (by omega)]
    decide

theorem urlB64Char_not_special (n : Nat) :
    urlB64Char n ≠ '+' ∧ urlB64Char n ≠ '/' ∧ urlB64Char n ≠ '=' := by
  by_cases h : n < 64
  · have hfin : ∀ i : Fin 64,
        urlB64Char i.val ≠ '+' ∧ urlB64Char i.val ≠ '/' ∧ urlB64Char i.val ≠ '=' := by
      decide
    exact hfin ⟨n, h⟩
  · unfold urlB64Char
    rw [b64Char_of_ge n (by omega)]
    decide

theorem b64Char_ne_eq (n : Nat) : b64Char n ≠ '=' := by
  by_cases h : n < 64
  · have hfin : ∀ i : Fin 64, b64Char i.val ≠ '=' := by decide
    exact hfin ⟨n, h⟩
  · rw [b64Char_of_ge n (by omega)]
    decide

theorem b64Char_not_space (n : Nat) : isB64Space (b64Char n) = false := by
  by_cases h : n < 64
  · have hfin : ∀ i : Fin 64, isB64Space (b64Char i.val) = false := by decide
    exact hfin ⟨n, h⟩
  · rw [b64Char_of_ge n (by omega)]
    decide

theorem url_to_std (n : Nat) :
    replaceUnderscore (replaceMinus (urlB64Char n)) = b64Char n := by
  by_cases h : n < 64
  · have hfin : ∀ i : Fin 64,
        replaceUnderscore (replaceMinus (urlB64Char i.val)) = b64Char i.val := by decide
    exact hfin ⟨n, h⟩
  · unfold urlB64Char
    rw [b64Char_of_ge n (by omega)]
    decide

theorem b64Val_b64Char (n : Nat) (h : n < 64) : b64Val (b64Char n) = some n := by
  have hfin : ∀ i : Fin 64, b64Val (b64Char i.val) = some i.val := by decide
  exact hfin ⟨n, h⟩

/-! ## Encoding normalization -/

theorem dropWhileAppend (p : Char → Bool) (l1 l2 : List Char) :
    (l1 ++ l2).dropWhile p =
      if (l1.dropWhile p).isEmpty then l2.dropWhile p else l1.dropWhile p ++ l2 := by
  induction l1 with
  | nil => simp
  | cons a t ih =>
    by_cases h : p a
    · simpa [List.dropWhile_cons, h] using ih
    · simp [List.dropWhile_cons, h]

theorem dropTrailingEq_append (w z : List Char) (hw : ∀ c ∈ w, c ≠ '=') :
    dropTrailingEq (w ++ z) = w ++ dropTrailingEq z := by
  unfold dropTrailingEq
  rw [List.reverse_append, dropWhileAppend]
  by_cases h : (z.reverse.dropWhile (fun c => c == '=')).isEmpty
  · rw [if_pos h]
    have hz : z.reverse.dropWhile (fun c => c == '=') = [] :=
      List.isEmpty_iff.mp h
    have hw' : w.reverse.dropWhile (fun c => c == '=') = w.reverse := by
      cases hwr : w.reverse with
      | nil => simp
      | cons a t =>
        have ha : a ∈ w := by
          have : a ∈ w.reverse := by rw [hwr]; exact List.mem_cons_self a t
          simpa using this
        have hne : (a == '=') = false := by
          simpa using hw a ha
        simp [List.dropWhile_cons, hne]
    rw [hw', hz]
    simp
  · rw [if_neg h]
    simp

theorem dropTrailingEq_replicate (k : Nat) :
    dropTrailingEq (List.replicate k '=') = [] := by
  unfold dropTrailingEq
  rw [List.reverse_replicate]
  have : (List.replicate k '=').dropWhile (fun c => c == '=') = [] := by
    induction k with
    | zero => rfl
    | succ n ih => simp [List.replicate_succ, List.dropWhile_cons, ih]
  rw [this]
  rfl

theorem btoa_structure (B : List Nat) :
    ∃ k ≤ 2, btoa B = (toSextets B).map b64Char ++ List.replicate k '=' := by
  induction B using threeStepInd with
  | h0 => exact ⟨0, by omega, rfl⟩
  | h1 a => exact ⟨2, by omega, rfl⟩
  | h2 a b => exact ⟨1, by omega, rfl⟩
  | h3 a b c r ih =>
    obtain ⟨k, hk, hr⟩ := ih
    refine ⟨k, hk, ?_⟩
    simp only [btoa, toSextets, List.map_cons, List.cons_append]
    rw [hr]

theorem arrayBufferToBase64Url_eq_sextets (B : List Nat) :
    arrayBufferToBase64Url B = (toSextets B).map urlB64Char := by
  obtain ⟨k, _hk, hbtoa⟩ := btoa_structure B
  unfold arrayBufferToBase64Url base64ToBase64Url
  rw [hbtoa, List.map_append, List.map_append, List.map_map, List.map_map,
    List.map_replicate, List.map_replicate]
  have hrep : replaceSlash (replacePlus '=') = '=' := rfl
  rw [hrep]
  rw [dropTrailingEq_append _ _ (by
    intro c hc
    obtain ⟨s, _, rfl⟩ := List.mem_map.mp hc
    exact urlB64Char_ne_eq s)]
  rw [dropTrailingEq_replicate]
  simp only [List.append_nil]
  rfl

/-! ## Decoding normalization -/

theorem stripOnePad_concat (x : List Char) : stripOnePad (x ++ ['=']) = x := by
  unfold stripOnePad
  rw [if_pos (by rw [List.getLast?_concat])]
  exact List.dropLast_concat

theorem stripOnePad_no_eq (x : List Char) (hx : ∀ c ∈ x, c ≠ '=') :
    stripOnePad x = x := by
  unfold stripOnePad
  rw [if_neg]
  intro h
  obtain ⟨hne, heq⟩ := List.mem_getLast?_eq_getLast (Option.mem_def.mpr h)
  exact hx '=' (heq ▸ List.getLast_mem hne) rfl

theorem stripPad2_pad (x : List Char) (p : Nat) (hx : ∀ c ∈ x, c ≠ '=')
    (hp : p ≤ 2) : stripPad2 (x ++ List.replicate p '=') = x := by
  unfold stripPad2
  interval_cases p
  · simp only [List.replicate, List.append_nil]
    rw [stripOnePad_no_eq x hx, stripOnePad_no_eq x hx]
  · have h1 : List.replicate 1 '=' = ['='] := rfl
    rw [h1, stripOnePad_concat, stripOnePad_no_eq x hx]
  · have h2 : x ++ List.replicate 2 '=' = (x ++ ['=']) ++ ['='] := by
      simp [List.replicate]
    rw [h2, stripOnePad_concat, stripOnePad_concat]

theorem mapM_b64Val_map (S : List Nat) (h : ∀ s ∈ S, s < 64) :
    (S.map b64Char).mapM b64Val = some S := by
  induction S with
  | nil => rfl
  | cons a t ih =>
    rw [List.map_cons, List.mapM_cons]
    rw [b64Val_b64Char a (h a (List.mem_cons_self a t))]
    rw [ih (fun s hs => h s (List.mem_cons_of_mem a hs))]
    rfl

theorem atobPre_pad (X : List Char) (p : Nat)
    (hX : ∀ c ∈ X, c ≠ '=' ∧ isB64Space c = false)
    (hmod : (X.length + p) % 4 = 0) (hp : p ≤ 2) :
    atobPre (X ++ List.replicate p '=') = X := by
  unfold atobPre
  have hfilter : (X ++ List.replicate p '=').filter (fun c => !isB64Space c) =
      X ++ List.replicate p '=' := by
    rw [List.filter_eq_self]
    intro c hc
    rcases List.mem_append.mp hc with hc | hc
    · simp [(hX c hc).2]
    · have : c = '=' := List.eq_of_mem_replicate hc
      subst this
      decide
  rw [hfilter, List.length_append, List.length_replicate]
  rw [if_pos (by simp [hmod])]
  exact stripPad2_pad X p (fun c hc => (hX c hc).1) hp

theorem decode_map_sextets (S : List Nat) (h64 : ∀ s ∈ S, s < 64)
    (hlen : S.length % 4 ≠ 1) :
    base64UrlToArrayBuffer (S.map urlB64Char) = some (decodeSextets S) := by
  unfold base64UrlToArrayBuffer
  have hmap : base64UrlToBase64 (S.map urlB64Char) = S.map b64Char := by
    unfold base64UrlToBase64
    rw [List.map_map, List.map_map]
    apply List.map_congr_left
    intro s _
    exact url_to_std s
  rw [hmap, List.length_map]
  unfold atob
  rw [atobPre_pad (S.map b64Char) ((4 - S.length % 4) % 4) (by
      intro c hc
      obtain ⟨s, _, rfl⟩ := List.mem_map.mp hc
      exact ⟨b64Char_ne_eq s, b64Char_not_space s⟩)
    (by simp only [List.length_map]; omega) (by omega)]
  rw [if_neg (by simp [List.length_map]; omega)]
  rw [mapM_b64Val_map S h64]
  rfl

theorem decodeSextets_toSextets (B : List Nat) (h : ∀ b ∈ B, b < 256) :
    decodeSextets (toSextets B) = B := by
  induction B using threeStepInd with
  | h0 => rfl
  | h1 a =>
    have ha := h a (List.mem_cons_self a [])
    simp only [toSextets, decodeSextets, List.cons.injEq, and_true]
    omega
  | h2 a b =>
    have ha := h a (by simp)
    have hb := h b (by simp)
    simp only [toSextets, decodeSextets, List.cons.injEq, and_true]
    constructor
    · omega
    · omega
  | h3 a b c r ih =>
    have ha := h a (by simp)
    have hb := h b (by simp)
    have hc := h c (by simp)
    simp only [toSextets, decodeSextets, List.cons.injEq]
    refine ⟨by omega, by omega, by omega, ?_⟩
    exact ih (fun x hx => h x (by simp [hx]))

theorem toSextets_lt (B : List Nat) (h : ∀ b ∈ B, b < 256) :
    ∀ s ∈ toSextets B, s < 64 := by
  induction B using threeStepInd with
  | h0 => intro s hs; simp [toSextets] at hs
  | h1 a =>
    have ha := h a (by simp)
    intro s hs
    simp only [toSextets, List.mem_cons, List.not_mem_nil, or_false] at hs
    rcases hs with rfl | rfl <;> omega
  | h2 a b =>
    have ha := h a (by simp)
    have hb := h b (by simp)
    intro s hs
    simp only [toSextets, List.mem_cons, List.not_mem_nil, or_false] at hs
    rcases hs with rfl | rfl | rfl <;> omega
  | h3 a b c r ih =>
    have ha := h a (by simp)
    have hb := h b (by simp)
    have hc := h c (by simp)
    intro s hs
    simp only [toSextets, List.mem_cons] at hs
    rcases hs with rfl | rfl | rfl | rfl | hs
    · omega
    · omega
    · omega
    · omega
    · exact ih (fun x hx => h x (by simp [hx])) s hs

theorem toSextets_length_mod (B : List Nat) : (toSextets B).length % 4 ≠ 1 := by
  induction B using threeStepInd with
  | h0 => simp [toSextets]
  | h1 a => simp [toSextets]
  | h2 a b => simp [toSextets]
  | h3 a b c r ih =>
    simp only [toSextets, List.length_cons]
    omega

/-! ## Canonical wire text -/

theorem canonSextets_length_mod (S : List Nat) (h : canonSextets S = true) :
    S.length % 4 ≠ 1 := by
  induction S using fourStepInd with
  | h0 => simp
  | h1 a => simp [canonSextets] at h
  | h2 a b => simp
  | h3 a b c => simp
  | h4 a b c d r ih =>
    have hr : canonSextets r = true := h
    have := ih hr
    simp only [List.length_cons]
    omega

theorem toSextets_decodeSextets (S : List Nat) (h64 : ∀ s ∈ S, s < 64)
    (hc : canonSextets S = true) : toSextets (decodeSextets S) = S := by
  induction S using fourStepInd with
  | h0 => rfl
  | h1 a => simp [canonSextets] at hc
  | h2 a b =>
    have ha := h64 a (by simp)
    have hb := h64 b (by simp)
    have hb16 : b % 16 = 0 := by simpa [canonSextets] using hc
    simp only [decodeSextets, toSextets, List.cons.injEq, and_true]
    constructor
    · omega
    · omega
  | h3 a b c =>
    have ha := h64 a (by simp)
    have hb := h64 b (by simp)
    have hcc := h64 c (by simp)
    have hc4 : c % 4 = 0 := by simpa [canonSextets] using hc
    simp only [decodeSextets, toSextets, List.cons.injEq, and_true]
    refine ⟨by omega, by omega, by omega⟩
  | h4 a b c d r ih =>
    have ha := h64 a (by simp)
    have hb := h64 b (by simp)
    have hcc := h64 c (by simp)
    have hd := h64 d (by simp)
    have hr : canonSextets r = true := hc
    simp only [decodeSextets, toSextets, List.cons.injEq]
    refine ⟨by omega, by omega, by omega, by omega, ?_⟩
    exact ih (fun x hx => h64 x (by simp [hx])) hr

theorem urlAlphabet_char_facts :
    ∀ c ∈ urlB64Alphabet, urlB64Char (charValD c) = c ∧ charValD c < 64 := by
  decide

theorem contains_mem {c : Char} {l : List Char} (h : l.contains c = true) :
    c ∈ l := by
  simpa using h

theorem valid_chars_map (T : List Char) (h : ∀ c ∈ T, c ∈ urlB64Alphabet) :
    (T.map charValD).map urlB64Char = T := by
  induction T with
  | nil => rfl
  | cons a t ih =>
    simp only [List.map_cons, List.cons.injEq]
    exact ⟨(urlAlphabet_char_facts a (h a (by simp))).1,
      ih (fun c hc => h c (by simp [hc]))⟩

/-! ## Claims C2, C3, C4: the codec -/

theorem codec_roundtrip_bytes (B : List Nat) (h : ∀ b ∈ B, b < 256) :
    base64UrlToArrayBuffer (arrayBufferToBase64Url B) = some B := by
  rw [arrayBufferToBase64Url_eq_sextets,
    decode_map_sextets (toSextets B) (toSextets_lt B h) (toSextets_length_mod B),
    decodeSextets_toSextets B h]

theorem codec_roundtrip_wire (T : List Char) (h : isValidWire T = true) :
    (base64UrlToArrayBuffer T).map arrayBufferToBase64Url = some T := by
  unfold isValidWire at h
  rw [Bool.and_eq_true] at h
  obtain ⟨hall, hcanon⟩ := h
  have hmem : ∀ c ∈ T, c ∈ urlB64Alphabet := by
    intro c hc
    exact contains_mem (by
      have := List.all_eq_true.mp hall c hc
      simpa using this)
  have hT : (T.map charValD).map urlB64Char = T := valid_chars_map T hmem
  have h64 : ∀ s ∈ T.map charValD, s < 64 := by
    intro s hs
    obtain ⟨c, hc, rfl⟩ := List.mem_map.mp hs
    exact (urlAlphabet_char_facts c (hmem c hc)).2
  have hlen : (T.map charValD).length % 4 ≠ 1 :=
    canonSextets_length_mod (T.map charValD) hcanon
  have hdec : base64UrlToArrayBuffer T = some (decodeSextets (T.map charValD)) := by
    conv_lhs => rw [← hT]
    exact decode_map_sextets (T.map charValD) h64 hlen
  rw [hdec, Option.map_some']
  rw [arrayBufferToBase64Url_eq_sextets,
    toSextets_decodeSextets (T.map charValD) h64 hcanon, hT]

/-- Claim C2: the codec is self-inverse. Decoding the encoding of any byte
sequence gives back exactly that byte sequence; encoding the decoding of
any valid (canonical padding-free URL-safe base64) wire text gives back
exactly that text; the empty byte sequence encodes to the empty string and
the empty string decodes to the empty byte sequence. -/
theorem claim_C2_codec_roundtrip :
    (∀ B : List Nat, (∀ b ∈ B, b < 256) →
      base64UrlToArrayBuffer (arrayBufferToBase64Url B) = some B) ∧
    (∀ T : List Char, isValidWire T = true →
      (base64UrlToArrayBuffer T).map arrayBufferToBase64Url = some T) ∧
    arrayBufferToBase64Url [] = [] ∧
    base64UrlToArrayBuffer [] = some [] :=
  ⟨codec_roundtrip_bytes, codec_roundtrip_wire, rfl, rfl⟩

/-- Witness for C2 at concrete inputs: the byte sequence `[0, 255, 10]`
and the wire text `"ABA-"`. -/
theorem claim_C2_codec_roundtrip_witness :
    base64UrlToArrayBuffer (arrayBufferToBase64Url [0, 255, 10]) = some [0, 255, 10] ∧
    (base64UrlToArrayBuffer ['A', 'B', 'A', '-']).map arrayBufferToBase64Url =
      some ['A', 'B', 'A', '-'] :=
  ⟨claim_C2_codec_roundtrip.1 [0, 255, 10] (by decide),
   claim_C2_codec_roundtrip.2.1 ['A', 'B', 'A', '-'] (by decide)⟩

/-- Claim C3: for every valid input byte sequence, the encoder's output
contains no `+`, no `/` and no `=` character. -/
theorem claim_C3_alphabet_restricted (B : List Nat) (_h : ∀ b ∈ B, b < 256) :
    '+' ∉ arrayBufferToBase64Url B ∧ '/' ∉ arrayBufferToBase64Url B ∧
    '=' ∉ arrayBufferToBase64Url B := by
  rw [arrayBufferToBase64Url_eq_sextets]
  refine ⟨?_, ?_, ?_⟩ <;>
  · intro hmem
    obtain ⟨s, _, hs⟩ := List.mem_map.mp hmem
    have := urlB64Char_not_special s
    tauto

/-- Witness for C3 at the concrete byte sequence `[0, 1, 250]`. -/
theorem claim_C3_alphabet_restricted_witness :
    '+' ∉ arrayBufferToBase64Url [0, 1, 250] ∧
    '/' ∉ arrayBufferToBase64Url [0, 1, 250] ∧
    '=' ∉ arrayBufferToBase64Url [0, 1, 250] :=
  claim_C3_alphabet_restricted [0, 1, 250] (by decide)

/-- Claim C4: the decoder throws a `TypeError` on every non-string input
shape; the encoder succeeds on every `Uint8Array`, `ArrayBuffer` and plain
numeric array, and throws an unsupported-input `Error` on every other
shape. -/
theorem claim_C4_input_shapes :
    (∀ i : JSInput, (∀ s, i ≠ .str s) →
      base64UrlToArrayBufferJS i = .error (mkError "TypeError" decodeTypeErrorMessage)) ∧
    (∀ b, arrayBufferToBase64UrlJS (.u8 b) = .ok (arrayBufferToBase64Url b)) ∧
    (∀ b, arrayBufferToBase64UrlJS (.arrbuf b) = .ok (arrayBufferToBase64Url b)) ∧
    (∀ ns, arrayBufferToBase64UrlJS (.numarr ns) =
      .ok (arrayBufferToBase64Url (ns.map (fun n => n % 256)))) ∧
    (∀ s, arrayBufferToBase64UrlJS (.str s) =
      .error (mkError "Error" encodeUnsupportedMessage)) ∧
    (∀ v, arrayBufferToBase64UrlJS (.other v) =
      .error (mkError "Error" encodeUnsupportedMessage)) := by
  refine ⟨?_, fun _ => rfl, fun _ => rfl, fun _ => rfl, fun _ => rfl, fun _ => rfl⟩
  intro i hi
  cases i with
  | str s => exact absurd rfl (hi s)
  | u8 b => rfl
  | arrbuf b => rfl
  | numarr ns => rfl
  | other v => rfl

/-- Witness for C4: the decoder rejects the concrete non-string input
`null` with the type error. -/
theorem claim_C4_input_shapes_witness :
    base64UrlToArrayBufferJS (.other .vNull) =
      .error (mkError "TypeError" decodeTypeErrorMessage) :=
  claim_C4_input_shapes.1 (.other .vNull) (fun s => by simp)

/-! ## Server-error pass-through -/

theorem objLookup_spreadFromServer_ne (res : Obj) (k : String) (hk : k ≠ "from") :
    objLookup (spreadFromServer res) k = objLookup res k := by
  have hkf : (k == "from") = false := by simpa using hk
  unfold objLookup spreadFromServer
  induction res with
  | nil => simp [List.lookup, hkf]
  | cons p t ih =>
    obtain ⟨p1, p2⟩ := p
    by_cases hp : p1 = "from"
    · subst hp
      have hkp : (k == "from") = false := hkf
      simp only [List.filter_cons, show (("from", p2).1 != "from") = false by simp,
        cond_false, List.lookup, hkp]
      exact ih
    · have hpb : (("from" : String) == p1) = false ∨ True := Or.inr trivial
      by_cases hkp : k = p1
      · subst hkp
        simp [List.filter_cons, show ((k, p2).1 != "from") = true by simpa using hp,
          List.lookup]
      · have hkpb : (k == p1) = false := by simpa using hkp
        simp only [List.filter_cons, show ((p1, p2).1 != "from") = true by simpa using hp,
          cond_true, List.cons_append, List.lookup, hkpb]
        exact ih

theorem objLookup_spreadFromServer_from (res : Obj) :
    objLookup (spreadFromServer res) "from" = some (.vStr "server") := by
  unfold objLookup spreadFromServer
  induction res with
  | nil => simp [List.lookup]
  | cons p t ih =>
    obtain ⟨p1, p2⟩ := p
    by_cases hp : p1 = "from"
    · subst hp
      simp only [List.filter_cons, show (("from", p2).1 != "from") = false by simp,
        cond_false]
      exact ih
    · have hpb : (("from" : String) == p1) = false := by
        simpa using fun h => hp h.symm
      simp only [List.filter_cons, show ((p1, p2).1 != "from") = true by simpa using hp,
        cond_true, List.cons_append, List.lookup, hpb]
      exact ih

/-! ## Claim C9: the error normalizer -/

theorem getErrorMessage_of_msgField (v : JsVal) (m : String)
    (h : msgField v = some m) : getErrorMessage v = m := by
  unfold getErrorMessage toErrorWithMessage
  rw [h]

theorem getErrorMessage_of_stringify (v : JsVal) (s : String)
    (h1 : msgField v = none) (h2 : jsonStringify v = .text s) :
    getErrorMessage v = s := by
  unfold getErrorMessage toErrorWithMessage
  rw [h1, h2]

theorem getErrorMessage_of_fallback (v : JsVal)
    (h1 : msgField v = none) (h2 : jsonStringify v = .thrown) :
    getErrorMessage v = jsString v := by
  unfold getErrorMessage toErrorWithMessage
  rw [h1, h2]

/-- Claim C9: the error normalizer is total (it is a Lean function, hence
never throws) and follows the stated policy — a string `message` field is
used as is, else the structured-serialization text, else the generic
string conversion; and the ceremony catch block wraps the result as
`\x7bfrom: "client", errorCode: "unknown", title: message\x7d` (shown on
`register` with a throwing authenticator). -/
theorem claim_C9_normalizer_policy :
    (∀ (v : JsVal) (m : String), msgField v = some m → getErrorMessage v = m) ∧
    (∀ (v : JsVal) (s : String), msgField v = none → jsonStringify v = .text s →
      getErrorMessage v = s) ∧
    (∀ v : JsVal, msgField v = none → jsonStringify v = .thrown →
      getErrorMessage v = jsString v) ∧
    (∀ (cfg : Config) (env : CeremonyEnv) (token nickname : String)
      (res : BeginSuccess RegDataWire) (d : RegDataDec) (v : JsVal),
      isBrowserSupported env = true →
      env.registerBeginResp = .ok res →
      res.error = none →
      decodeRegData res.data = .ok d →
      env.credCreate = .thrown v →
      (registerRun cfg env token nickname).2 =
        .result (.failure (unknownClientError (getErrorMessage v)))) := by
  refine ⟨getErrorMessage_of_msgField, getErrorMessage_of_stringify,
    getErrorMessage_of_fallback, ?_⟩
  intro cfg env token nickname res d v hb hbegin herr hdec hcreate
  simp [registerRun, hb, hbegin, herr, hdec, hcreate, catchNormalize]

/-- Witness for C9 at concrete values: an error object with a message, a
serializable number, a cyclic object, and a register run whose
authenticator throws the number `3`. -/
theorem claim_C9_normalizer_policy_witness :
    getErrorMessage (mkError "Error" "boom") = "boom" ∧
    getErrorMessage (.vBool true) = "true" ∧
    getErrorMessage (.vCyclic []) = jsString (.vCyclic []) ∧
    (registerRun cfgW { envW with credCreate := .thrown (.vNum 3) } "tok" "nick").2 =
      .result (.failure (unknownClientError (getErrorMessage (.vNum 3)))) :=
  ⟨claim_C9_normalizer_policy.1 (mkError "Error" "boom") "boom" rfl,
   claim_C9_normalizer_policy.2.1 (.vBool true) "true" rfl
     (by simp [jsonStringify, isUndef, hasCyclic, renderJson]),
   claim_C9_normalizer_policy.2.2.1 (.vCyclic []) rfl
     (by simp [jsonStringify, isUndef, hasCyclic]),
   claim_C9_normalizer_policy.2.2.2 cfgW _ "tok" "nick" ⟨none, regDataW, "sessR"⟩
     ⟨[0, 0, 0], [], none⟩ (.vNum 3) rfl rfl rfl rfl rfl⟩

/-! ## Claim C6: server error on register begin -/

/-- Claim C6: when `/register/begin` answers with a non-success status and
body `E`, `register` resolves to `\x7berror: \x7b...E, from: "server"\x7d\x7d`
— the body's fields preserved verbatim and `from` set to `"server"` — and
the authenticator's credential-creation capability is never invoked. -/
theorem claim_C6_register_begin_server_error (cfg : Config) (env : CeremonyEnv)
    (token nickname : String) (E : Obj)
    (hb : isBrowserSupported env = true)
    (hresp : env.registerBeginResp = .notOk E) :
    registerRun cfg env token nickname =
      ([Ev.fetchRegisterBegin ⟨token, cfg.rpid, cfg.origin⟩],
        .result (.failure (spreadFromServer E))) ∧
    (∀ k, k ≠ "from" → objLookup (spreadFromServer E) k = objLookup E k) ∧
    objLookup (spreadFromServer E) "from" = some (.vStr "server") ∧
    Ev.credCreate ∉ (registerRun cfg env token nickname).1 := by
  refine ⟨?_, fun k hk => objLookup_spreadFromServer_ne E k hk,
    objLookup_spreadFromServer_from E, ?_⟩
  · simp [registerRun, hb, hresp]
  · simp [registerRun, hb, hresp]

/-- Witness for C6 at a concrete environment whose begin response is a 400
with body `\x7berrorCode: "invalid_token", from: "api"\x7d`. -/
theorem claim_C6_register_begin_server_error_witness :
    registerRun cfgW
        { envW with registerBeginResp :=
            BeginResp.notOk [("errorCode", .vStr "invalid_token"), ("from", .vStr "api")] }
        "tok1" "my-key" =
      ([Ev.fetchRegisterBegin ⟨"tok1", cfgW.rpid, cfgW.origin⟩],
        .result (.failure (spreadFromServer
          [("errorCode", .vStr "invalid_token"), ("from", .vStr "api")]))) ∧
    (∀ k, k ≠ "from" →
      objLookup (spreadFromServer
        [("errorCode", .vStr "invalid_token"), ("from", .vStr "api")]) k =
      objLookup [("errorCode", .vStr "invalid_token"), ("from", .vStr "api")] k) ∧
    objLookup (spreadFromServer
      [("errorCode", .vStr "invalid_token"), ("from", .vStr "api")]) "from" =
      some (.vStr "server") ∧
    Ev.credCreate ∉ (registerRun cfgW
        { envW with registerBeginResp :=
            BeginResp.notOk [("errorCode", .vStr "invalid_token"), ("from", .vStr "api")] }
        "tok1" "my-key").1 :=
  claim_C6_register_begin_server_error cfgW _ "tok1" "my-key" _ rfl rfl

/-! ## Claim C7: null credential creation -/

/-- Claim C7: when the credential-creation capability resolves to null,
`register` resolves to the dedicated client error
`failed_create_credential` and `/register/complete` is never called. -/
theorem claim_C7_register_null_credential (cfg : Config) (env : CeremonyEnv)
    (token nickname : String) (res : BeginSuccess RegDataWire) (d : RegDataDec)
    (hb : isBrowserSupported env = true)
    (hresp : env.registerBeginResp = .ok res)
    (herr : res.error = none)
    (hdec : decodeRegData res.data = .ok d)
    (hnull : env.credCreate = .nullCred) :
    (registerRun cfg env token nickname).2 =
      .result (.failure failedCreateCredentialError) ∧
    objLookup failedCreateCredentialError "from" = some (.vStr "client") ∧
    objLookup failedCreateCredentialError "errorCode" =
      some (.vStr "failed_create_credential") ∧
    (∀ body, Ev.fetchRegisterComplete body ∉ (registerRun cfg env token nickname).1) := by
  refine ⟨?_, rfl, rfl, ?_⟩
  · simp [registerRun, hb, hresp, herr, hdec, hnull]
  · intro body
    simp [registerRun, hb, hresp, herr, hdec, hnull]

/-- Witness for C7 at a concrete environment whose authenticator returns
null. -/
theorem claim_C7_register_null_credential_witness :
    (registerRun cfgW envW "tok1" "my-key").2 =
      .result (.failure failedCreateCredentialError) ∧
    objLookup failedCreateCredentialError "from" = some (.vStr "client") ∧
    objLookup failedCreateCredentialError "errorCode" =
      some (.vStr "failed_create_credential") ∧
    (∀ body, Ev.fetchRegisterComplete body ∉ (registerRun cfgW envW "tok1" "my-key").1) :=
  claim_C7_register_null_credential cfgW envW "tok1" "my-key"
    ⟨none, regDataW, "sessR"⟩ ⟨[0, 0, 0], [], none⟩ rfl rfl rfl rfl rfl

/-! ## Claim C10: null credential retrieval in sign-in -/

/-- Claim C10: unlike registration, `signin` has no null check on the
retrieval result; a null credential flows into `signinComplete`, whose
`credential.response` access throws, so `signin` resolves to the generic
`\x7bfrom: "client", errorCode: "unknown"\x7d` error — never a dedicated
failed-retrieval code — and `/signin/complete` is never submitted. -/
theorem claim_C10_signin_null_credential (cfg : Config) (st : ClientState)
    (env : CeremonyEnv) (m : Option SigninMethod)
    (res : BeginSuccess SigninDataWire) (d : SigninDataDec)
    (hb : isBrowserSupported env = true)
    (hresp : env.signinBeginResp = .ok res)
    (herr : res.error = none)
    (hdec : decodeSigninData res.data = .ok d)
    (hnull : env.credGet = .nullCred) :
    (signinRun cfg st env m).2.2 =
      .result (.failure (unknownClientError nullCredentialResponseMessage)) ∧
    objLookup (unknownClientError nullCredentialResponseMessage) "from" =
      some (.vStr "client") ∧
    objLookup (unknownClientError nullCredentialResponseMessage) "errorCode" =
      some (.vStr "unknown") ∧
    (∀ body, Ev.fetchSigninComplete body ∉ (signinRun cfg st env m).2.1) := by
  refine ⟨?_, rfl, rfl, ?_⟩
  · simp [signinRun, hb, hresp, herr, hdec, hnull, catchNormalize]
    rfl
  · intro body
    simp [signinRun, hb, hresp, herr, hdec, hnull]

/-- Witness for C10 at a concrete environment whose retrieval returns
null. -/
theorem claim_C10_signin_null_credential_witness :
    (signinRun cfgW ⟨0⟩ envW (some .discoverable)).2.2 =
      .result (.failure (unknownClientError nullCredentialResponseMessage)) ∧
    objLookup (unknownClientError nullCredentialResponseMessage) "from" =
      some (.vStr "client") ∧
    objLookup (unknownClientError nullCredentialResponseMessage) "errorCode" =
      some (.vStr "unknown") ∧
    (∀ body, Ev.fetchSigninComplete body ∉
      (signinRun cfgW ⟨0⟩ envW (some .discoverable)).2.1) :=
  claim_C10_signin_null_credential cfgW ⟨0⟩ envW (some .discoverable)
    ⟨none, signinDataW, "sessS"⟩ ⟨[0, 0, 0], none⟩ rfl rfl rfl rfl rfl

/-! ## Claim C1: unsupported environment -/

theorem getErrorMessage_mkError (n m : String) :
    getErrorMessage (mkError n m) = m := rfl

/-- Counterexample to claim C1 as stated: with the environment-support
check returning false, `register` does not throw the unsupported failure
to its caller — `assertBrowserSupported`'s throw happens inside the `try`
block, the top-level `catch` normalizes it, and the call resolves to the
async `\x7berror: ...\x7d` result shape (the very shape the claim says is
not used).  No network request is issued. -/
theorem claim_C1_counterexample :
    registerRun cfgW envWUnsupported "tok" "nick" =
      ([], .result (.failure (unknownClientError browserUnsupportedMessage))) ∧
    ∀ v, (registerRun cfgW envWUnsupported "tok" "nick").2 ≠ .thrown v := by
  constructor
  · rfl
  · intro v h
    exact CallOutcome.noConfusion h

/-- Claim C1 (amended): when the environment-support check returns false,
every ceremony entry point issues no network request and no authenticator
call, but none of them throws the unsupported-environment failure past its
boundary: `register` and the id/alias/discoverable sign-in variants
resolve to the normalized `\x7bfrom: "client", errorCode: "unknown"\x7d`
result carrying the unsupported message; the autofill variant leaves the
client state untouched and emits no events (it rejects from its upfront
autofill probe instead of entering the ceremony). -/
theorem claim_C1_unsupported_resolves_not_throws (cfg : Config)
    (st : ClientState) (env : CeremonyEnv)
    (h : isBrowserSupported env = false) :
    (∀ token nickname, registerRun cfg env token nickname =
      ([], .result (.failure (unknownClientError browserUnsupportedMessage)))) ∧
    (∀ m, signinRun cfg st env m =
      (st, [], .result (.failure (unknownClientError browserUnsupportedMessage)))) ∧
    (∀ u, signinWithIdRun cfg st env u =
      (st, [], .result (.failure (unknownClientError browserUnsupportedMessage)))) ∧
    (∀ a, signinWithAliasRun cfg st env a =
      (st, [], .result (.failure (unknownClientError browserUnsupportedMessage)))) ∧
    (signinWithDiscoverableRun cfg st env =
      (st, [], .result (.failure (unknownClientError browserUnsupportedMessage)))) ∧
    ((signinWithAutofillRun cfg st env).1 = st ∧
      (signinWithAutofillRun cfg st env).2.1 = []) := by
  have hsr : ∀ m, signinRun cfg st env m =
      (st, [], .result (.failure (unknownClientError browserUnsupportedMessage))) := by
    intro m
    simp [signinRun, h, catchNormalize, getErrorMessage_mkError]
  refine ⟨?_, hsr, fun u => hsr _, fun a => hsr _, hsr _, ?_⟩
  · intro token nickname
    simp [registerRun, h, catchNormalize, getErrorMessage_mkError]
  · by_cases hpd : env.pkcDefined
    · cases hcm : env.condMediation with
      | none => simp [signinWithAutofillRun, isAutofillSupportedRun, hpd, hcm]
      | some b =>
        cases b
        · simp [signinWithAutofillRun, isAutofillSupportedRun, hpd, hcm]
        · simp [signinWithAutofillRun, isAutofillSupportedRun, hpd, hcm, hsr]
    · simp [signinWithAutofillRun, isAutofillSupportedRun, hpd]

/-- Witness for the amended C1 at a concrete unsupported environment. -/
theorem claim_C1_unsupported_resolves_not_throws_witness :
    registerRun cfgW envWUnsupported "t" "n" =
      ([], .result (.failure (unknownClientError browserUnsupportedMessage))) ∧
    signinWithIdRun cfgW ⟨0⟩ envWUnsupported "u1" =
      (⟨0⟩, [], .result (.failure (unknownClientError browserUnsupportedMessage))) :=
  ⟨(claim_C1_unsupported_resolves_not_throws cfgW ⟨0⟩ envWUnsupported rfl).1 "t" "n",
   (claim_C1_unsupported_resolves_not_throws cfgW ⟨0⟩ envWUnsupported rfl).2.2.1 "u1"⟩

/-! ## Claim C5: selector exclusivity -/

theorem signinBegin_body_eq (cfg : Config) (st : ClientState)
    (env : CeremonyEnv) (m : Option SigninMethod) (body : SigninBeginBody)
    (h : Ev.fetchSigninBegin body ∈ (signinRun cfg st env m).2.1) :
    body = mkSigninBeginBody cfg (defaultSelector m) := by
  cases hb : isBrowserSupported env with
  | false => simp [signinRun, hb] at h
  | true =>
    cases hr : env.signinBeginResp with
    | notOk E =>
      simp [signinRun, hb, hr] at h
      exact h
    | ok res =>
      cases herr : res.error with
      | some e =>
        simp [signinRun, hb, hr, herr] at h
        exact h
      | none =>
        cases hd : decodeSigninData res.data with
        | error v =>
          simp [signinRun, hb, hr, herr, hd] at h
          exact h
        | ok dec =>
          cases hg : env.credGet with
          | thrown v =>
            simp [signinRun, hb, hr, herr, hd, hg] at h
            exact h
          | nullCred =>
            simp [signinRun, hb, hr, herr, hd, hg] at h
            exact h
          | success cred =>
            cases hc : env.signinCompleteResp with
            | ok b =>
              simp [signinRun, hb, hr, herr, hd, hg, hc] at h
              exact h
            | notOk b =>
              simp [signinRun, hb, hr, herr, hd, hg, hc] at h
              exact h

/-- Claim C5: every `/signin/begin` request body carries at most one of
userId/alias, determined by the selector variant: a userId selector sends
that userId with alias undefined, an alias selector sends that alias with
userId undefined, and a discoverable, autofill or absent selector sends
both undefined. -/
theorem claim_C5_selector_exclusivity (cfg : Config) (st : ClientState)
    (env : CeremonyEnv) (m : Option SigninMethod) (body : SigninBeginBody)
    (h : Ev.fetchSigninBegin body ∈ (signinRun cfg st env m).2.1) :
    match m with
    | some (.userId u) => body.userId = some u ∧ body.aliasName = none
    | some (.aliasName a) => body.userId = none ∧ body.aliasName = some a
    | _ => body.userId = none ∧ body.aliasName = none := by
  have hbody := signinBegin_body_eq cfg st env m body h
  subst hbody
  cases m with
  | none => exact ⟨rfl, rfl⟩
  | some mm =>
    cases mm with
    | userId u => exact ⟨rfl, rfl⟩
    | aliasName a => exact ⟨rfl, rfl⟩
    | autofill => exact ⟨rfl, rfl⟩
    | discoverable => exact ⟨rfl, rfl⟩

/-- Witness for C5 at a concrete userId sign-in. -/
theorem claim_C5_selector_exclusivity_witness :
    (mkSigninBeginBody cfgW (SigninMethod.userId "u1")).userId = some "u1" ∧
    (mkSigninBeginBody cfgW (SigninMethod.userId "u1")).aliasName = none :=
  claim_C5_selector_exclusivity cfgW ⟨0⟩ envW (some (.userId "u1"))
    (mkSigninBeginBody cfgW (.userId "u1"))
    (List.mem_cons_of_mem _ (List.mem_cons_of_mem _ (List.mem_cons_self _ _)))

/-! ## Claim C8: cancellation-controller discipline -/

theorem prefix_append_cases {α : Type} (l1 l2 p : List α) (h : p <+: l1 ++ l2) :
    p <+: l1 ∨ ∃ q, p = l1 ++ q ∧ q <+: l2 := by
  induction l1 generalizing p with
  | nil => exact Or.inr ⟨p, rfl, h⟩
  | cons a t ih =>
    cases p with
    | nil => exact Or.inl List.nil_prefix
    | cons x xs =>
      rw [List.cons_append, List.cons_prefix_cons] at h
      obtain ⟨rfl, h2⟩ := h
      rcases ih xs h2 with h3 | ⟨q, rfl, hq⟩
      · exact Or.inl (List.cons_prefix_cons.mpr ⟨rfl, h3⟩)
      · exact Or.inr ⟨q, rfl, hq⟩

theorem signinRun_unsupported (cfg : Config) (st : ClientState)
    (env : CeremonyEnv) (m : Option SigninMethod)
    (h : isBrowserSupported env = false) :
    signinRun cfg st env m =
      (st, [], .result (.failure (unknownClientError browserUnsupportedMessage))) := by
  simp [signinRun, h, catchNormalize, getErrorMessage_mkError]

theorem signinRun_supported_trace (cfg : Config) (st : ClientState)
    (env : CeremonyEnv) (m : Option SigninMethod)
    (hb : isBrowserSupported env = true) :
    ∃ rest, (signinRun cfg st env m).2.1 =
      Ev.abortSignal st.gen :: Ev.newController (st.gen + 1) ::
        Ev.fetchSigninBegin (mkSigninBeginBody cfg (defaultSelector m)) :: rest ∧
      (∀ g, Ev.abortSignal g ∉ rest) ∧
      (∀ g, Ev.newController g ∉ rest) ∧
      (∀ g c, Ev.credGet g c ∈ rest → g = st.gen + 1) ∧
      (signinRun cfg st env m).1 = ⟨st.gen + 1⟩ := by
  cases hr : env.signinBeginResp with
  | notOk E =>
    refine ⟨[], ?_, by simp, by simp, by simp, ?_⟩ <;>
      simp [signinRun, hb, hr]
  | ok res =>
    cases herr : res.error with
    | some e =>
      refine ⟨[], ?_, by simp, by simp, by simp, ?_⟩ <;>
        simp [signinRun, hb, hr, herr]
    | none =>
      cases hd : decodeSigninData res.data with
      | error v =>
        refine ⟨[], ?_, by simp, by simp, by simp, ?_⟩ <;>
          simp [signinRun, hb, hr, herr, hd]
      | ok dec =>
        cases hg : env.credGet with
        | thrown v =>
          refine ⟨[Ev.credGet (st.gen + 1)
              (match defaultSelector m with | .autofill => true | _ => false)],
            ?_, by simp, by simp, ?_, ?_⟩
          · simp [signinRun, hb, hr, herr, hd, hg]
          · intro g c hgc
            simp only [List.mem_cons, List.not_mem_nil, or_false] at hgc
            simp only [Ev.credGet.injEq] at hgc
            exact hgc.1
          · simp [signinRun, hb, hr, herr, hd, hg]
        | nullCred =>
          refine ⟨[Ev.credGet (st.gen + 1)
              (match defaultSelector m with | .autofill => true | _ => false)],
            ?_, by simp, by simp, ?_, ?_⟩
          · simp [signinRun, hb, hr, herr, hd, hg]
          · intro g c hgc
            simp only [List.mem_cons, List.not_mem_nil, or_false] at hgc
            simp only [Ev.credGet.injEq] at hgc
            exact hgc.1
          · simp [signinRun, hb, hr, herr, hd, hg]
        | success cred =>
          cases hc : env.signinCompleteResp with
          | ok b =>
            refine ⟨[Ev.credGet (st.gen + 1)
                (match defaultSelector m with | .autofill => true | _ => false),
              Ev.fetchSigninComplete (mkSigninCompleteBody cfg cred res.session)],
              ?_, by simp, by simp, ?_, ?_⟩
            · simp [signinRun, hb, hr, herr, hd, hg, hc]
            · intro g c hgc
              simp only [List.mem_cons, List.not_mem_nil, or_false] at hgc
              rcases hgc with hgc | hgc
              · simp only [Ev.credGet.injEq] at hgc
                exact hgc.1
              · exact absurd hgc (by simp)
            · simp [signinRun, hb, hr, herr, hd, hg, hc]
          | notOk b =>
            refine ⟨[Ev.credGet (st.gen + 1)
                (match defaultSelector m with | .autofill => true | _ => false),
              Ev.fetchSigninComplete (mkSigninCompleteBody cfg cred res.session)],
              ?_, by simp, by simp, ?_, ?_⟩
            · simp [signinRun, hb, hr, herr, hd, hg, hc]
            · intro g c hgc
              simp only [List.mem_cons, List.not_mem_nil, or_false] at hgc
              rcases hgc with hgc | hgc
              · simp only [Ev.credGet.injEq] at hgc
                exact hgc.1
              · exact absurd hgc (by simp)
            · simp [signinRun, hb, hr, herr, hd, hg, hc]

theorem runSeq_cons (cfg : Config) (st : ClientState) (env : CeremonyEnv)
    (m : Option SigninMethod) (rest : List (CeremonyEnv × Option SigninMethod)) :
    runSeq cfg st ((env, m) :: rest) =
      ((runSeq cfg (signinRun cfg st env m).1 rest).1,
       (signinRun cfg st env m).2.1 ++ (runSeq cfg (signinRun cfg st env m).1 rest).2) := rfl

theorem runSeq_controller_invariant (cfg : Config)
    (invs : List (CeremonyEnv × Option SigninMethod)) : ∀ st : ClientState,
    (Ev.abortSignal st.gen ∉ (runSeq cfg st invs).2 → (runSeq cfg st invs).1 = st) ∧
    (∀ q, q <+: (runSeq cfg st invs).2 → ∀ g c, Ev.credGet g c ∈ q →
      Ev.abortSignal st.gen ∈ q) ∧
    (∀ g, liveArmed (runSeq cfg st invs).2 g → g = (runSeq cfg st invs).1.gen) ∧
    (∀ p, p <+: (runSeq cfg st invs).2 →
      ∀ g1 g2, liveArmed p g1 → liveArmed p g2 → g1 = g2) := by
  induction invs with
  | nil =>
    intro st
    refine ⟨fun _ => rfl, ?_, ?_, ?_⟩
    · intro q hq g c hgc
      have hqnil : q = [] := List.prefix_nil.mp hq
      subst hqnil
      simp at hgc
    · intro g hg
      obtain ⟨⟨c, hc⟩, _⟩ := hg
      simp [runSeq] at hc
    · intro p hp g1 g2 h1 h2
      have hpnil : p = [] := List.prefix_nil.mp hp
      subst hpnil
      obtain ⟨⟨c, hc⟩, _⟩ := h1
      simp at hc
  | cons inv rest ih =>
    intro st
    obtain ⟨env, m⟩ := inv
    cases hb : isBrowserSupported env with
    | false =>
      have he := signinRun_unsupported cfg st env m hb
      rw [runSeq_cons, he]
      simpa using ih st
    | true =>
      obtain ⟨rest1, htr, hnoab, hnonew, hcg, hst1⟩ :=
        signinRun_supported_trace cfg st env m hb
      rw [runSeq_cons, hst1, htr]
      obtain ⟨ih1, ih2, ih3, ih4⟩ := ih ⟨st.gen + 1⟩
      have hA1 : ∀ g, Ev.abortSignal g ∈
          Ev.abortSignal st.gen :: Ev.newController (st.gen + 1) ::
            Ev.fetchSigninBegin (mkSigninBeginBody cfg (defaultSelector m)) :: rest1 →
          g = st.gen := by
        intro g hgmem
        simp only [List.mem_cons] at hgmem
        rcases hgmem with h | h | h | h
        · simpa using h
        · simp at h
        · simp at h
        · exact absurd h (hnoab g)
      have hA2 : ∀ g c, Ev.credGet g c ∈
          Ev.abortSignal st.gen :: Ev.newController (st.gen + 1) ::
            Ev.fetchSigninBegin (mkSigninBeginBody cfg (defaultSelector m)) :: rest1 →
          g = st.gen + 1 := by
        intro g c hgmem
        simp only [List.mem_cons] at hgmem
        rcases hgmem with h | h | h | h
        · simp at h
        · simp at h
        · simp at h
        · exact hcg g c h
      refine ⟨?_, ?_, ?_, ?_⟩
      · intro hnot
        exact absurd (List.mem_append_left _ (List.mem_cons_self _ _)) hnot
      · intro q hq g c hgc
        rcases prefix_append_cases _ _ q hq with hq1 | ⟨q', rfl, hq2⟩
        · cases q with
          | nil => simp at hgc
          | cons x xs =>
            rw [List.cons_prefix_cons] at hq1
            obtain ⟨rfl, _⟩ := hq1
            exact List.mem_cons_self _ _
        · exact List.mem_append_left _ (List.mem_cons_self _ _)
      · intro g hg
        obtain ⟨⟨c, hcmem⟩, hnab⟩ := hg
        have hnab2 : Ev.abortSignal g ∉ (runSeq cfg ⟨st.gen + 1⟩ rest).2 :=
          fun hm => hnab (List.mem_append_right _ hm)
        rcases List.mem_append.mp hcmem with hin1 | hin2
        · have hg1 : g = st.gen + 1 := hA2 g c hin1
          have hfin : (runSeq cfg ⟨st.gen + 1⟩ rest).1 = ⟨st.gen + 1⟩ :=
            ih1 (hg1 ▸ hnab2)
          rw [hfin]
          exact hg1
        · exact ih3 g ⟨⟨c, hin2⟩, hnab2⟩
      · intro p hp g1 g2 h1 h2
        rcases prefix_append_cases _ _ p hp with hp1 | ⟨q, rfl, hq⟩
        · obtain ⟨⟨c1, hm1⟩, _⟩ := h1
          obtain ⟨⟨c2, hm2⟩, _⟩ := h2
          rw [hA2 g1 c1 (List.IsPrefix.mem hm1 hp1),
            hA2 g2 c2 (List.IsPrefix.mem hm2 hp1)]
        · obtain ⟨⟨c1, hm1⟩, hnab1⟩ := h1
          obtain ⟨⟨c2, hm2⟩, hnab2⟩ := h2
          have hnabq1 : Ev.abortSignal g1 ∉ q :=
            fun hm => hnab1 (List.mem_append_right _ hm)
          have hnabq2 : Ev.abortSignal g2 ∉ q :=
            fun hm => hnab2 (List.mem_append_right _ hm)
          rcases List.mem_append.mp hm1 with hin1 | hin1 <;>
            rcases List.mem_append.mp hm2 with hin2 | hin2
          · rw [hA2 g1 c1 hin1, hA2 g2 c2 hin2]
          · exfalso
            have e1 : g1 = st.gen + 1 := hA2 g1 c1 hin1
            have habq : Ev.abortSignal (st.gen + 1) ∈ q := ih2 q hq g2 c2 hin2
            have : Ev.abortSignal g1 ∈ q := by rw [e1]; exact habq
            exact hnab1 (List.mem_append_right _ this)
          · exfalso
            have e2 : g2 = st.gen + 1 := hA2 g2 c2 hin2
            have habq : Ev.abortSignal (st.gen + 1) ∈ q := ih2 q hq g1 c1 hin1
            have : Ev.abortSignal g2 ∈ q := by rw [e2]; exact habq
            exact hnab2 (List.mem_append_right _ this)
          · exact ih4 q hq g1 g2 ⟨⟨c1, hin1⟩, hnabq1⟩ ⟨⟨c2, hin2⟩, hnabq2⟩

/-- Claim C8: a new sign-in ceremony first signals abort on the client's
current controller, then installs a fresh controller, before any network
or authenticator step; the retrieval of the new ceremony is armed with the
fresh controller's signal; and along any sequence of sign-in invocations
on one client instance, at most one retrieval is ever armed with a live
(unaborted) signal at any point of the trace. -/
theorem claim_C8_controller_discipline :
    (∀ (cfg : Config) (st : ClientState) (env : CeremonyEnv)
      (m : Option SigninMethod), isBrowserSupported env = true →
      ∃ rest, (signinRun cfg st env m).2.1 =
        Ev.abortSignal st.gen :: Ev.newController (st.gen + 1) ::
          Ev.fetchSigninBegin (mkSigninBeginBody cfg (defaultSelector m)) :: rest ∧
        (∀ g, Ev.abortSignal g ∉ rest) ∧
        (∀ g c, Ev.credGet g c ∈ rest → g = st.gen + 1) ∧
        (signinRun cfg st env m).1 = ⟨st.gen + 1⟩) ∧
    (∀ (cfg : Config) (st : ClientState)
      (invs : List (CeremonyEnv × Option SigninMethod)) (p : List Ev),
      p <+: (runSeq cfg st invs).2 →
      ∀ g1 g2, liveArmed p g1 → liveArmed p g2 → g1 = g2) := by
  constructor
  · intro cfg st env m hb
    obtain ⟨rest, htr, hnoab, _, hcg, hst1⟩ :=
      signinRun_supported_trace cfg st env m hb
    exact ⟨rest, htr, hnoab, hcg, hst1⟩
  · intro cfg st invs p hp
    exact (runSeq_controller_invariant cfg invs st).2.2.2 p hp

/-- Witness for C8: the trace shape at a concrete client state and
environment, and uniqueness of the live generation on the concrete trace
of one sign-in invocation. -/
theorem claim_C8_controller_discipline_witness :
    (∃ rest, (signinRun cfgW ⟨5⟩ envW none).2.1 =
      Ev.abortSignal 5 :: Ev.newController 6 ::
        Ev.fetchSigninBegin (mkSigninBeginBody cfgW (defaultSelector none)) :: rest ∧
      (∀ g, Ev.abortSignal g ∉ rest) ∧
      (∀ g c, Ev.credGet g c ∈ rest → g = 6) ∧
      (signinRun cfgW ⟨5⟩ envW none).1 = ⟨6⟩) ∧
    (6 : Nat) = 6 :=
  ⟨claim_C8_controller_discipline.1 cfgW ⟨5⟩ envW none rfl,
   claim_C8_controller_discipline.2 cfgW ⟨5⟩ [(envW, none)]
     [Ev.abortSignal 5, Ev.newController 6,
      Ev.fetchSigninBegin (mkSigninBeginBody cfgW (defaultSelector none)),
      Ev.credGet 6 false]
     ⟨[], rfl⟩ 6 6
     ⟨⟨false, by simp⟩, by simp⟩ ⟨⟨false, by simp⟩, by simp⟩⟩

end Passwordless
